import Mathlib

/-!
# Verification of the FinanceTracker expense-ledger engine

A shallow embedding of `src/finance_track/database.py` (class `DatabaseManager`)
and proofs about its operations.

Modelling conventions:
* The SQLite database is modelled as an explicit `DBState` value threaded through
  the operations; `REAL` amounts are modelled as `Rat`, `TEXT` as `String`,
  `AUTOINCREMENT` primary keys as a stored next-id counter.
* All reads and writes go through the single shared connection, so statements
  executed but not yet committed are still visible to later operations on the
  same store; the model therefore applies every executed statement to the state
  directly (the code never issues a rollback).
* `print` calls are modelled as an `output : List String` component of each
  operation's result.
* Genuine external storage faults (disk I/O) cannot be produced by a pure model;
  the read operations that catch `sqlite3.Error` take a `storageError : Bool`
  parameter selecting whether the wrapped query raises.  Deterministic SQL
  syntax errors (malformed query strings built by the code itself) are modelled
  exactly where the code produces them.
* `datetime.strptime(date, "%Y-%m-%d")` is modelled by `validIsoDate`:
  CPython's `_strptime` matches `%Y` as exactly four digits, `%m` as one or two
  digits in 1..12, `%d` as one or two digits in 1..31, requires the whole string
  to be consumed, and the resulting `datetime` constructor additionally checks
  the day against the month length (with leap years) and that the year is ≥ 1.
-/

namespace FinanceTrack

/-! ## String comparison

SQLite compares `TEXT` values with `memcmp` over their UTF-8 encodings and
Python compares `str` values code point by code point; for any two strings
both agree with lexicographic comparison of the code-point sequences, defined
structurally here. -/

def charListLe : List Char → List Char → Bool
  | [], _ => true
  | _ :: _, [] => false
  | a :: as, b :: bs =>
    if a.toNat = b.toNat then charListLe as bs else decide (a.toNat < b.toNat)

def strLe (a b : String) : Bool := charListLe a.toList b.toList

def strLt (a b : String) : Bool := !(strLe b a)

/-! ## Date validation (`datetime.strptime(date, "%Y-%m-%d")`) -/

def isLeapYear (y : Nat) : Bool :=
  y % 4 == 0 && (y % 100 != 0 || y % 400 == 0)

def daysInMonth (y m : Nat) : Nat :=
  if m = 2 then (if isLeapYear y then 29 else 28)
  else if m = 4 ∨ m = 6 ∨ m = 9 ∨ m = 11 then 30
  else 31

def digitsToNat (s : String) : Nat :=
  s.toList.foldl (fun a c => a * 10 + (c.toNat - 48)) 0

def allDigits (s : String) : Bool :=
  s.toList.all Char.isDigit

/-- Splitting a string at every occurrence of a separator character
(the pieces of the `%Y-%m-%d` format are separated by single characters,
so character-level splitting agrees with `str.split("-")`). -/
def splitOnChar (sep : Char) (s : String) : List String :=
  (s.toList.foldr (fun c acc =>
    match acc with
    | [] => [[c]]
    | g :: gs => if c = sep then [] :: g :: gs else (c :: g) :: gs) [[]]).map
    (fun l => String.mk l)

/-- Whether `datetime.strptime(s, "%Y-%m-%d")` succeeds: the format regex
matches `%Y` as exactly four digits and `%m`, `%d` as one or two digits with
values in range, the whole string must be consumed, and the `datetime`
constructor requires `1 ≤ year` and a day that exists in the given month. -/
def validIsoDate (s : String) : Bool :=
  match splitOnChar '-' s with
  | [ys, ms, ds] =>
    ys.length == 4 && allDigits ys &&
    decide (1 ≤ ms.length) && decide (ms.length ≤ 2) && allDigits ms &&
    decide (1 ≤ ds.length) && decide (ds.length ≤ 2) && allDigits ds &&
    (let y := digitsToNat ys
     let m := digitsToNat ms
     let d := digitsToNat ds
     decide (1 ≤ y) && decide (1 ≤ m) && decide (m ≤ 12) &&
     decide (1 ≤ d) && decide (d ≤ daysInMonth y m))
  | _ => false

/-! ## Data model

`categories(id PK AUTOINCREMENT, name TEXT UNIQUE NOT NULL)` and
`expenses(id PK AUTOINCREMENT, amount REAL NOT NULL, description TEXT,
date TEXT NOT NULL, category_id INTEGER REFERENCES categories(id))`. -/

structure CategoryRow where
  id : Nat
  name : String
deriving DecidableEq, Repr

structure ExpenseRow where
  id : Nat
  amount : Rat
  description : String
  date : String
  categoryId : Nat
deriving DecidableEq, Repr

structure DBState where
  categories : List CategoryRow
  expenses : List ExpenseRow
  nextCategoryId : Nat
  nextExpenseId : Nat
deriving DecidableEq, Repr

def DEFAULT_CATEGORIES : List String :=
  ["Food", "Transportation", "Housing", "Entertainment", "Utilities", "Other"]

/-- Model of `INSERT OR IGNORE INTO categories (name) VALUES (?)`. -/
def insertCategoryIfAbsent (s : DBState) (name : String) : DBState :=
  if s.categories.any (fun c => c.name == name) then s
  else
    { s with
      categories := s.categories ++ [⟨s.nextCategoryId, name⟩],
      nextCategoryId := s.nextCategoryId + 1 }

def emptyState : DBState := ⟨[], [], 1, 1⟩

/-- The state produced by `DatabaseManager.__init__` on a fresh database file:
tables created empty, then the default categories inserted. -/
def initialState : DBState :=
  DEFAULT_CATEGORIES.foldl insertCategoryIfAbsent emptyState

/-! ## `add_expense` -/

structure AddResult where
  ret : Option Nat
  state : DBState
  output : List String
deriving DecidableEq, Repr

/-- Model of `DatabaseManager.add_expense(amount, category_name, date=None, description="")`.
`today` stands for `datetime.now().strftime("%Y-%m-%d")`, substituted when
`date` is `None`. -/
def add_expense (s : DBState) (today : String) (amount : Rat)
    (category_name : String) (date : Option String) (description : String) :
    AddResult :=
  let d := date.getD today
  if !(validIsoDate d) then
    ⟨none, s, ["Invalid date format. Please use ISO format (YYYY-MM-DD)."]⟩
  else
    -- SELECT id FROM categories WHERE name = ?  (resolve-or-create)
    match s.categories.find? (fun c => c.name == category_name) with
    | some c =>
      let eid := s.nextExpenseId
      ⟨some eid,
       { s with
         expenses := s.expenses ++ [⟨eid, amount, description, d, c.id⟩],
         nextExpenseId := eid + 1 },
       []⟩
    | none =>
      -- INSERT INTO categories (name) VALUES (?), then insert the expense
      let cid := s.nextCategoryId
      let eid := s.nextExpenseId
      ⟨some eid,
       { s with
         categories := s.categories ++ [⟨cid, category_name⟩],
         nextCategoryId := cid + 1,
         expenses := s.expenses ++ [⟨eid, amount, description, d, cid⟩],
         nextExpenseId := eid + 1 },
       []⟩

/-! ## `update_expense` -/

structure UpdateResult where
  ret : Bool
  state : DBState
  output : List String
deriving DecidableEq, Repr

/-- Model of `DatabaseManager.update_expense(expense_id, amount=None, description=None,
category_name=None, date=None)`.

The code builds `conditions` (each entry a single `col = ?` assignment, in the
order amount, description, category, date) and executes
`"UPDATE expenses SET " + " ".join(conditions) + " WHERE id = ?"`.
SQLite's `UPDATE` grammar requires the assignments of the `SET` clause to be
separated by commas, so the space-joined clause parses exactly when there is
one assignment; with two or more, `cursor.execute` raises `sqlite3.Error`,
which the code catches (printing a message) and returns `False` — after the
resolve-or-create category `INSERT` has already been executed on the
connection, with no rollback. -/
def update_expense (s : DBState) (expense_id : Nat) (amount : Option Rat)
    (description : Option String) (category_name : Option String)
    (date : Option String) : UpdateResult :=
  -- note: `date` is not part of this emptiness check
  if amount.isNone && description.isNone && category_name.isNone then
    ⟨false, s, ["No information was provided to update the expense."]⟩
  else
    match s.expenses.find? (fun e => e.id == expense_id) with
    | none =>
      ⟨false, s, ["Expense with ID " ++ toString expense_id ++ " not found."]⟩
    | some _ =>
      -- resolve-or-create the category (executed before the UPDATE statement)
      let catStep : DBState × Option Nat :=
        match category_name with
        | none => (s, none)
        | some cn =>
          match s.categories.find? (fun c => c.name == cn) with
          | some c => (s, some c.id)
          | none =>
            ({ s with
               categories := s.categories ++ [⟨s.nextCategoryId, cn⟩],
               nextCategoryId := s.nextCategoryId + 1 },
             some s.nextCategoryId)
      let s1 := catStep.1
      let cid? := catStep.2
      let conditions : List String :=
        (if amount.isSome then ["amount = ?"] else []) ++
        (if description.isSome then [" description = ?"] else []) ++
        (if cid?.isSome then ["category_id = ?"] else []) ++
        (if date.isSome then ["date = ?"] else [])
      if conditions.length == 1 then
        -- the SET clause is a single assignment: the UPDATE executes and commits
        let newExpenses := s1.expenses.map (fun e =>
          if e.id == expense_id then
            { e with
              amount := amount.getD e.amount,
              description := description.getD e.description,
              categoryId := cid?.getD e.categoryId,
              date := date.getD e.date }
          else e)
        ⟨true, { s1 with expenses := newExpenses }, []⟩
      else
        -- two or more space-joined assignments: sqlite3 rejects the statement
        ⟨false, s1, ["Error while updating an expense: SQL syntax error"]⟩

/-! ## Read operations -/

/-- The rows of `FROM expenses e JOIN categories c ON e.category_id = c.id`
projected to `(e.id, e.amount, e.description, e.date, c.name)`.  Category ids
are primary keys, so at most one category matches each expense. -/
structure ExpenseWithCategory where
  id : Nat
  amount : Rat
  description : String
  date : String
  category : String
deriving DecidableEq, Repr

def rowOf (cats : List CategoryRow) (e : ExpenseRow) : Option ExpenseWithCategory :=
  (cats.find? (fun c => c.id == e.categoryId)).map
    (fun c => ⟨e.id, e.amount, e.description, e.date, c.name⟩)

def joinAll (s : DBState) : List ExpenseWithCategory :=
  s.expenses.filterMap (rowOf s.categories)

/-- Sorting relation of `ORDER BY e.date DESC`. -/
def dateDesc (a b : ExpenseWithCategory) : Prop := strLe b.date a.date = true

instance : DecidableRel dateDesc :=
  fun a b => inferInstanceAs (Decidable (strLe b.date a.date = true))

/-- Sorting relation of `ORDER BY e.date` (ascending). -/
def dateAsc (a b : ExpenseWithCategory) : Prop := strLe a.date b.date = true

instance : DecidableRel dateAsc :=
  fun a b => inferInstanceAs (Decidable (strLe a.date b.date = true))

/-- Sorting relation of `ORDER BY total DESC`. -/
def totalDesc (a b : String × Rat) : Prop := b.2 ≤ a.2

instance : DecidableRel totalDesc :=
  fun a b => inferInstanceAs (Decidable (b.2 ≤ a.2))

/-- Model of `DatabaseManager.get_all_expenses()`.  `storageError` selects whether the
wrapped query raises `sqlite3.Error`; in that case the message is printed and
the initial default `expenses = []` is returned. -/
def get_all_expenses (s : DBState) (storageError : Bool) :
    List ExpenseWithCategory × List String :=
  if storageError then
    ([], ["Error while getting expenses: storage error"])
  else
    ((joinAll s).insertionSort dateDesc, [])

/-- Model of `DatabaseManager.get_expenses_by_category()`:
`SELECT c.name, SUM(e.amount) ... GROUP BY c.name ORDER BY total DESC`. -/
def get_expenses_by_category (s : DBState) (storageError : Bool) :
    List (String × Rat) × List String :=
  if storageError then
    ([], ["Error while getting expenses by category: storage error"])
  else
    let rows := joinAll s
    let names := (rows.map (fun r => r.category)).dedup
    let grouped := names.map (fun n =>
      (n, ((rows.filter (fun r => r.category == n)).map (fun r => r.amount)).sum))
    (grouped.insertionSort totalDesc, [])

/-- Model of `DatabaseManager.get_expenses_by_date_range(start_date, end_date)`. -/
def get_expenses_by_date_range (s : DBState) (storageError : Bool)
    (start_date end_date : String) : List ExpenseWithCategory × List String :=
  if !(validIsoDate start_date && validIsoDate end_date) then
    ([], ["Invalid date format. Provide the dates as 'YYYY-MM-DD'."])
  else if storageError then
    ([], ["Error while getting expenses by date range: storage error"])
  else
    (((joinAll s).filter (fun r =>
        strLe start_date r.date && strLe r.date end_date)).insertionSort
      dateAsc,
     [])

/-- Model of `DatabaseManager.fetch_expenses(category_name=None, date_range=None)`:
`SELECT * FROM expenses` with optional `date BETWEEN ? AND ?` and
`category_id = ?` conditions; a malformed date range or an unknown category
name drops that condition after printing a message.  A supplied empty-string
category name is falsy in Python (`if category_name:`), so it is skipped
silently. -/
def fetch_expenses (s : DBState) (category_name : Option String)
    (date_range : Option (String × String)) : List ExpenseRow × List String :=
  let dateStep : Option (String × String) × List String :=
    match date_range with
    | none => (none, [])
    | some (a, b) =>
      if validIsoDate a && validIsoDate b then (some (a, b), [])
      else (none, ["Invalid date format. Please use ISO format (YYYY-MM-DD)."])
  let catStep : Option Nat × List String :=
    match category_name with
    | none => (none, [])
    | some cn =>
      if cn == "" then (none, [])
      else
        match s.categories.find? (fun c => c.name == cn) with
        | some c => (some c.id, [])
        | none => (none, ["Category '" ++ cn ++ "' was not found."])
  let rows := s.expenses.filter (fun e =>
    (match dateStep.1 with
     | none => true
     | some (a, b) => strLe a e.date && strLe e.date b) &&
    (match catStep.1 with
     | none => true
     | some cid => e.categoryId == cid))
  (rows, dateStep.2 ++ catStep.2)

/-- Model of `SELECT MIN(date) AS min_date ... FROM expenses` folds to the smallest
date, `NULL` on an empty table. -/
def minString? : List String → Option String
  | [] => none
  | x :: xs => some (xs.foldl (fun a b => if strLt b a then b else a) x)

def maxString? : List String → Option String
  | [] => none
  | x :: xs => some (xs.foldl (fun a b => if strLt a b then b else a) x)

/-- Model of `DatabaseManager.extract_total_date_range()`.  The aggregate query always
yields exactly one row (with `NULL` fields when the table is empty), and a
fetched `sqlite3.Row` is truthy regardless of its values, so the
`if result:` branch is always taken. -/
def extract_total_date_range (s : DBState) :
    Option (Option String × Option String) :=
  let result : Option (Option String × Option String) :=
    some (minString? (s.expenses.map (fun e => e.date)),
          maxString? (s.expenses.map (fun e => e.date)))
  match result with
  | some r => some r
  | none => none

/-- The ordering used by Python's `sorted` on strings. -/
def strAsc (a b : String) : Prop := strLe a b = true

instance : DecidableRel strAsc :=
  fun a b => inferInstanceAs (Decidable (strLe a b = true))

/-- Model of `DatabaseManager.extract_existing_category_names()`:
`sorted(r["name"] for ... "SELECT name FROM categories")`. -/
def extract_existing_category_names (s : DBState) : List String :=
  (s.categories.map (fun c => c.name)).insertionSort strAsc

/-! ## Order properties of the string comparison -/

theorem charListLe_total (as bs : List Char) :
    charListLe as bs = true ∨ charListLe bs as = true := by
  induction as generalizing bs with
  | nil => exact Or.inl rfl
  | cons a as ih =>
    cases bs with
    | nil => exact Or.inr rfl
    | cons b bs =>
      by_cases h : a.toNat = b.toNat
      · simpa only [charListLe, if_pos h, if_pos h.symm] using ih bs
      · simp only [charListLe, if_neg h, if_neg (Ne.symm h), decide_eq_true_eq]
        omega

theorem charListLe_trans {as bs cs : List Char} (h1 : charListLe as bs = true)
    (h2 : charListLe bs cs = true) : charListLe as cs = true := by
  induction as generalizing bs cs with
  | nil => rfl
  | cons a as ih =>
    cases bs with
    | nil => simp [charListLe] at h1
    | cons b bs =>
      cases cs with
      | nil => simp [charListLe] at h2
      | cons c cs =>
        simp only [charListLe] at h1 h2 ⊢
        by_cases hab : a.toNat = b.toNat <;> by_cases hbc : b.toNat = c.toNat
        · rw [if_pos hab] at h1
          rw [if_pos hbc] at h2
          rw [if_pos (hab.trans hbc)]
          exact ih h1 h2
        · rw [if_neg hbc, decide_eq_true_eq] at h2
          rw [if_neg (by omega : ¬ a.toNat = c.toNat), decide_eq_true_eq]
          omega
        · rw [if_neg hab, decide_eq_true_eq] at h1
          rw [if_neg (by omega : ¬ a.toNat = c.toNat), decide_eq_true_eq]
          omega
        · rw [if_neg hab, decide_eq_true_eq] at h1
          rw [if_neg hbc, decide_eq_true_eq] at h2
          rw [if_neg (by omega : ¬ a.toNat = c.toNat), decide_eq_true_eq]
          omega

theorem strLe_total (a b : String) : strLe a b = true ∨ strLe b a = true :=
  charListLe_total a.toList b.toList

theorem strLe_trans {a b c : String} (h1 : strLe a b = true)
    (h2 : strLe b c = true) : strLe a c = true :=
  charListLe_trans h1 h2

theorem strLe_refl (a : String) : strLe a a = true :=
  (strLe_total a a).elim id id

instance : IsTotal ExpenseWithCategory dateAsc :=
  ⟨fun a b => strLe_total a.date b.date⟩

instance : IsTrans ExpenseWithCategory dateAsc :=
  ⟨fun _ _ _ => strLe_trans⟩

instance : IsTotal ExpenseWithCategory dateDesc :=
  ⟨fun a b => (strLe_total a.date b.date).symm⟩

instance : IsTrans ExpenseWithCategory dateDesc :=
  ⟨fun _ _ _ h1 h2 => strLe_trans h2 h1⟩

instance : IsTotal String strAsc :=
  ⟨strLe_total⟩

instance : IsTrans String strAsc :=
  ⟨fun _ _ _ => strLe_trans⟩

instance : IsTotal (String × Rat) totalDesc :=
  ⟨fun a b => (le_total a.2 b.2).symm⟩

instance : IsTrans (String × Rat) totalDesc :=
  ⟨fun _ _ _ h1 h2 => le_trans h2 h1⟩

/-! ## Well-formed states

Invariants provided by the schema: `name TEXT UNIQUE`, the two `INTEGER
PRIMARY KEY` columns, and the foreign key from expenses to categories. -/

def WF (s : DBState) : Prop :=
  (s.categories.map (fun c => c.name)).Nodup ∧
  (s.categories.map (fun c => c.id)).Nodup ∧
  (s.expenses.map (fun e => e.id)).Nodup ∧
  ∀ e ∈ s.expenses, ∃ c ∈ s.categories, c.id = e.categoryId

instance (s : DBState) : Decidable (WF s) := by
  unfold WF; infer_instance

/-! ## Demonstration states -/

/-- A store holding the single expense
`(id 1, amount 10, "lunch", "2024-03-01", category "Food")`. -/
def demoState : DBState :=
  (add_expense initialState "2024-03-01" 10 "Food" none "lunch").state

/-- A store holding two `Food` expenses (amounts 42 and 15) and one unused
category. -/
def demoState2 : DBState :=
  ⟨[⟨1, "Food"⟩, ⟨2, "Other"⟩],
   [⟨1, 42, "lunch", "2024-03-01", 1⟩, ⟨2, 15, "", "2024-03-15", 1⟩],
   3, 3⟩

/-! ## Join lemmas -/

theorem joinAll_row_exists {s : DBState} (hw : WF s) {e : ExpenseRow}
    (he : e ∈ s.expenses) :
    ∃ r ∈ joinAll s, r.id = e.id ∧ r.amount = e.amount ∧
      r.description = e.description ∧ r.date = e.date := by
  obtain ⟨-, -, -, href⟩ := hw
  obtain ⟨c, hc, hcid⟩ := href e he
  have hsome : (s.categories.find? (fun c => c.id == e.categoryId)).isSome := by
    rw [List.find?_isSome]
    exact ⟨c, hc, by simp [hcid]⟩
  obtain ⟨c', hc'⟩ := Option.isSome_iff_exists.mp hsome
  refine ⟨⟨e.id, e.amount, e.description, e.date, c'.name⟩, ?_, rfl, rfl, rfl, rfl⟩
  rw [joinAll, List.mem_filterMap]
  exact ⟨e, he, by rw [rowOf, hc']; rfl⟩

theorem join_category_mem (s : DBState) {r : ExpenseWithCategory}
    (hr : r ∈ joinAll s) : ∃ c ∈ s.categories, c.name = r.category := by
  rw [joinAll, List.mem_filterMap] at hr
  obtain ⟨e, he, hre⟩ := hr
  rw [rowOf] at hre
  obtain ⟨c, hfind, hrc⟩ := Option.map_eq_some'.mp hre
  exact ⟨c, List.mem_of_find?_eq_some hfind, by rw [← hrc]⟩

/-- The amounts of the joined rows carrying category `c`'s name are exactly
the amounts of the expense rows linked to `c` (uniqueness of category names
and ids makes the name-level grouping agree with the id-level link). -/
theorem filter_rowOf_amounts (cats : List CategoryRow) (es : List ExpenseRow)
    (c : CategoryRow) (hc : c ∈ cats)
    (hnames : (cats.map (fun x => x.name)).Nodup)
    (hids : (cats.map (fun x => x.id)).Nodup)
    (hex : ∀ e ∈ es, ∃ c' ∈ cats, c'.id = e.categoryId) :
    ((es.filterMap (rowOf cats)).filter
        (fun r => r.category == c.name)).map (fun r => r.amount)
      = (es.filter (fun e => e.categoryId == c.id)).map (fun e => e.amount) := by
  induction es with
  | nil => rfl
  | cons e es ih =>
    obtain ⟨c', hc'mem, hc'id⟩ := hex e (List.mem_cons_self e es)
    have hsome : (cats.find? (fun x => x.id == e.categoryId)).isSome := by
      rw [List.find?_isSome]
      exact ⟨c', hc'mem, by simp [hc'id]⟩
    obtain ⟨cf, hfind⟩ := Option.isSome_iff_exists.mp hsome
    have hcfmem : cf ∈ cats := List.mem_of_find?_eq_some hfind
    have hcfid : cf.id = e.categoryId := by
      have := List.find?_some hfind
      simpa using this
    have hrest : ∀ e' ∈ es, ∃ c'' ∈ cats, c''.id = e'.categoryId :=
      fun e' he' => hex e' (List.mem_cons_of_mem e he')
    by_cases heq : e.categoryId = c.id
    · have hcf : cf = c :=
        List.inj_on_of_nodup_map hids hcfmem hc (by rw [hcfid, heq])
      rw [List.filterMap_cons, rowOf, hfind, Option.map_some']
      rw [List.filter_cons, List.filter_cons]
      simp only [hcf, beq_self_eq_true, if_pos, heq]
      simp only [List.map_cons]
      rw [ih hrest]
    · have hcf : cf ≠ c := fun h => heq (by rw [← hcfid, h])
      have hname : cf.name ≠ c.name := fun h =>
        hcf (List.inj_on_of_nodup_map hnames hcfmem hc h)
      rw [List.filterMap_cons, rowOf, hfind, Option.map_some']
      rw [List.filter_cons, List.filter_cons]
      simp only [beq_iff_eq, hname, heq, if_neg, if_false]
      exact ih hrest

/-! ## Claims -/

/-- Claim C1 (code bug): the claim says every operation receiving a date rejects
an unparseable date string with a validation error before any write, and that
`updateExpense(id, ..., date=D)` with unparseable `D` performs no write.  The
code of `update_expense` never validates `date`: on
`update_expense(1, category_name="NewCat", date="not-a-date")` the
resolve-or-create step writes the category row `"NewCat"` (still observable
via `extract_existing_category_names` afterwards), no validation error is
reported (the reported message is the caught storage error from the malformed
`UPDATE` statement), even though `"not-a-date"` fails ISO validation. -/
theorem C1_update_expense_skips_date_validation :
    (update_expense demoState 1 none none (some "NewCat") (some "not-a-date")).ret
      = false ∧
    "NewCat" ∈ extract_existing_category_names
      (update_expense demoState 1 none none (some "NewCat") (some "not-a-date")).state ∧
    "NewCat" ∉ extract_existing_category_names demoState ∧
    (update_expense demoState 1 none none (some "NewCat") (some "not-a-date")).output
      = ["Error while updating an expense: SQL syntax error"] ∧
    validIsoDate "not-a-date" = false := by
  decide

/-- Claim C2 (code bug): the claim says updating only the `date` field modifies
the date and returns `true`.  The emptiness check of `update_expense` tests
`amount`, `description` and `category_name` but not `date`, so a date-only
update is treated as the "nothing to update" no-op: it returns `false`,
prints the no-information message and leaves the store unchanged. -/
theorem C2_update_expense_date_only_treated_as_noop :
    update_expense demoState 1 none none none (some "2024-03-15") =
      ⟨false, demoState,
       ["No information was provided to update the expense."]⟩ := by
  decide

/-- Claim C3 (code bug): the claim says a two-field update sets both fields and
returns `true`.  The code joins the `SET` assignments with `" "` instead of
`", "`, so any update supplying two or more fields builds a syntactically
invalid `UPDATE` statement; the caught `sqlite3.Error` makes the call return
`false` with no field modified. -/
theorem C3_update_expense_two_fields_fails :
    update_expense demoState 1 (some 20) (some "dinner") none none =
      ⟨false, demoState,
       ["Error while updating an expense: SQL syntax error"]⟩ := by
  decide

/-- Claim C4 (code bug): the claim says `getDateRange()` returns none (not a
pair) on an empty ledger.  The `MIN`/`MAX` aggregate query always yields one
row — with `NULL` entries when the table is empty — and a fetched row is
truthy, so the code returns the pair `(None, None)` rather than `None`; on a
non-empty ledger it does return the (min, max) pair. -/
theorem C4_empty_ledger_yields_null_pair :
    extract_total_date_range initialState = some (none, none) ∧
    initialState.expenses = [] ∧
    extract_total_date_range demoState2 =
      some (some "2024-03-01", some "2024-03-15") := by
  decide

/-- Claim C5 (code bug): the claim says a failed `updateExpense` leaves the
store unchanged, in particular that a category row inserted by its
resolve-or-create step is not observable after a failed update.  On
`update_expense(1, amount=5, category_name="Abandoned")` the category
`"Abandoned"` is inserted, then the malformed two-assignment `UPDATE` fails
and the code returns `false` without any rollback, leaving the new category
row visible via `extract_existing_category_names`. -/
theorem C5_failed_update_leaks_category_row :
    (update_expense demoState 1 (some 5) none (some "Abandoned") none).ret
      = false ∧
    "Abandoned" ∈ extract_existing_category_names
      (update_expense demoState 1 (some 5) none (some "Abandoned") none).state ∧
    "Abandoned" ∉ extract_existing_category_names demoState := by
  decide

/-- Claim C6 (counterexample): the claim says a storage error during
`get_all_expenses` is reported as a failure result distinguishable from the
legitimate empty-ledger result.  On a storage error the call returns the
default empty list — exactly the value returned for a legitimately empty
ledger — even when the store holds expenses. -/
theorem C6_storage_error_equals_empty_result :
    (get_all_expenses demoState true).1 = (get_all_expenses initialState false).1 ∧
    demoState.expenses ≠ [] := by
  decide

/-- Claim C6 (amended): a storage error during `get_all_expenses` is caught and
a message is printed, after which the default empty list is returned — the
same return value as for an empty ledger, so the caller cannot distinguish
the two from the result. -/
theorem C6_storage_error_returns_default (s : DBState) :
    get_all_expenses s true =
      ([], ["Error while getting expenses: storage error"]) ∧
    (get_all_expenses initialState false).1 = [] := by
  exact ⟨rfl, by decide⟩

/-- Claim C7: for well-formed ISO bounds `a ≤ date ≤ b` (inclusive,
lexicographic), `get_expenses_by_date_range` returns exactly the joined
expense rows in range, sorted ascending by date, with no message printed; a
reversed range gives an empty list without failing; a malformed bound gives
an empty list together with the printed validation message. -/
theorem C7_get_expenses_by_date_range (s : DBState) (a b : String)
    (hw : WF s) :
    (validIsoDate a = true → validIsoDate b = true →
      (get_expenses_by_date_range s false a b).2 = [] ∧
      (get_expenses_by_date_range s false a b).1.Pairwise dateAsc ∧
      (∀ r, r ∈ (get_expenses_by_date_range s false a b).1 ↔
        r ∈ joinAll s ∧ strLe a r.date = true ∧ strLe r.date b = true) ∧
      (∀ e ∈ s.expenses, (strLe a e.date = true ∧ strLe e.date b = true) ↔
        ∃ r ∈ (get_expenses_by_date_range s false a b).1,
          r.id = e.id ∧ r.amount = e.amount ∧ r.description = e.description ∧
            r.date = e.date) ∧
      (strLt b a = true → (get_expenses_by_date_range s false a b).1 = [])) ∧
    (¬(validIsoDate a = true ∧ validIsoDate b = true) →
      get_expenses_by_date_range s false a b =
        ([], ["Invalid date format. Provide the dates as 'YYYY-MM-DD'."])) := by
  constructor
  · intro ha hb
    have heq : get_expenses_by_date_range s false a b =
        (((joinAll s).filter (fun r =>
            strLe a r.date && strLe r.date b)).insertionSort dateAsc, []) := by
      rw [get_expenses_by_date_range, ha, hb]
      rfl
    have hmem : ∀ r, r ∈ (get_expenses_by_date_range s false a b).1 ↔
        r ∈ joinAll s ∧ strLe a r.date = true ∧ strLe r.date b = true := by
      intro r
      rw [heq]
      simp [List.mem_insertionSort, List.mem_filter]
    refine ⟨by rw [heq], ?_, hmem, ?_, ?_⟩
    · rw [heq]
      exact List.sorted_insertionSort dateAsc _
    · intro e he
      constructor
      · rintro ⟨h1, h2⟩
        obtain ⟨r, hr, hrid, hramt, hrdesc, hrdate⟩ := joinAll_row_exists hw he
        exact ⟨r, (hmem r).mpr ⟨hr, by rw [hrdate]; exact h1,
          by rw [hrdate]; exact h2⟩, hrid, hramt, hrdesc, hrdate⟩
      · rintro ⟨r, hr, -, -, -, hrdate⟩
        obtain ⟨-, h1, h2⟩ := (hmem r).mp hr
        rw [hrdate] at h1 h2
        exact ⟨h1, h2⟩
    · intro hba
      have hab : strLe a b = false := by
        have : (!(strLe a b)) = true := hba
        simpa using this
      rw [List.eq_nil_iff_forall_not_mem]
      intro r hr
      obtain ⟨-, h1, h2⟩ := (hmem r).mp hr
      rw [strLe_trans h1 h2] at hab
      simp at hab
  · intro hv
    rw [get_expenses_by_date_range]
    have hg : (!(validIsoDate a && validIsoDate b)) = true := by
      cases hA : validIsoDate a <;> cases hB : validIsoDate b <;> simp_all
    rw [hg]
    rfl

/-- Witness for C7 at a concrete well-formed store and concrete bounds. -/
theorem C7_get_expenses_by_date_range_witness :
    WF demoState ∧
    ((validIsoDate "2024-01-01" = true → validIsoDate "2024-12-31" = true →
      (get_expenses_by_date_range demoState false "2024-01-01" "2024-12-31").2
        = [] ∧
      (get_expenses_by_date_range demoState false "2024-01-01"
        "2024-12-31").1.Pairwise dateAsc ∧
      (∀ r, r ∈ (get_expenses_by_date_range demoState false "2024-01-01"
          "2024-12-31").1 ↔
        r ∈ joinAll demoState ∧ strLe "2024-01-01" r.date = true ∧
          strLe r.date "2024-12-31" = true) ∧
      (∀ e ∈ demoState.expenses,
        (strLe "2024-01-01" e.date = true ∧ strLe e.date "2024-12-31" = true) ↔
        ∃ r ∈ (get_expenses_by_date_range demoState false "2024-01-01"
            "2024-12-31").1,
          r.id = e.id ∧ r.amount = e.amount ∧ r.description = e.description ∧
            r.date = e.date) ∧
      (strLt "2024-12-31" "2024-01-01" = true →
        (get_expenses_by_date_range demoState false "2024-01-01"
          "2024-12-31").1 = [])) ∧
    (¬(validIsoDate "2024-01-01" = true ∧ validIsoDate "2024-12-31" = true) →
      get_expenses_by_date_range demoState false "2024-01-01" "2024-12-31" =
        ([], ["Invalid date format. Provide the dates as 'YYYY-MM-DD'."]))) :=
  ⟨by decide,
   C7_get_expenses_by_date_range demoState "2024-01-01" "2024-12-31" (by decide)⟩

/-- Claim C8: `get_expenses_by_category` prints nothing, is ordered by
descending total, has pairwise-distinct category names each of which is a
real category, a category's name appears iff it has at least one expense
(so zero-expense categories never appear), and every reported total is the
exact sum of the amounts of the expenses linked to that category. -/
theorem C8_get_expenses_by_category (s : DBState) (hw : WF s) :
    (get_expenses_by_category s false).2 = [] ∧
    (get_expenses_by_category s false).1.Pairwise totalDesc ∧
    ((get_expenses_by_category s false).1.map Prod.fst).Nodup ∧
    (∀ p ∈ (get_expenses_by_category s false).1,
      ∃ c ∈ s.categories, c.name = p.1) ∧
    (∀ c ∈ s.categories,
      (c.name ∈ (get_expenses_by_category s false).1.map Prod.fst ↔
        ∃ e ∈ s.expenses, e.categoryId = c.id) ∧
      (∀ t, (c.name, t) ∈ (get_expenses_by_category s false).1 →
        t = ((s.expenses.filter (fun e => e.categoryId == c.id)).map
              (fun e => e.amount)).sum)) := by
  obtain ⟨hnames, hids, -, href⟩ := hw
  set rows := joinAll s with hrows
  set grouped := ((rows.map (fun r => r.category)).dedup.map (fun n =>
    (n, ((rows.filter (fun r => r.category == n)).map
          (fun r => r.amount)).sum))) with hgrouped
  have heq : get_expenses_by_category s false =
      (grouped.insertionSort totalDesc, []) := rfl
  have hperm : (get_expenses_by_category s false).1.Perm grouped := by
    rw [heq]
    exact List.perm_insertionSort totalDesc grouped
  have hfst : ∀ p ∈ grouped, p.1 ∈ (rows.map (fun r => r.category)).dedup := by
    intro p hp
    rw [hgrouped, List.mem_map] at hp
    obtain ⟨n, hn, hnp⟩ := hp
    rw [← hnp]
    exact hn
  have hmemgrouped : ∀ p ∈ (get_expenses_by_category s false).1, p ∈ grouped :=
    fun p hp => hperm.mem_iff.mp hp
  refine ⟨by rw [heq], ?_, ?_, ?_, ?_⟩
  · rw [heq]
    exact List.sorted_insertionSort totalDesc grouped
  · have : (get_expenses_by_category s false).1.map Prod.fst
        |>.Perm (grouped.map Prod.fst) := hperm.map Prod.fst
    rw [this.nodup_iff]
    rw [hgrouped, List.map_map]
    have : (Prod.fst ∘ fun n =>
        (n, ((rows.filter (fun r => r.category == n)).map
              (fun r => r.amount)).sum)) = id := rfl
    rw [this, List.map_id]
    exact List.nodup_dedup _
  · intro p hp
    have hpd := hfst p (hmemgrouped p hp)
    rw [List.mem_dedup, List.mem_map] at hpd
    obtain ⟨r, hr, hrp⟩ := hpd
    obtain ⟨c, hc, hcr⟩ := join_category_mem s hr
    exact ⟨c, hc, by rw [hcr, hrp]⟩
  · intro c hc
    have hamounts := filter_rowOf_amounts s.categories s.expenses c hc hnames
      hids href
    constructor
    · have h1 : c.name ∈ (get_expenses_by_category s false).1.map Prod.fst ↔
          c.name ∈ grouped.map Prod.fst := (hperm.map Prod.fst).mem_iff
      rw [h1, hgrouped, List.map_map]
      have h2 : (Prod.fst ∘ fun n =>
          (n, ((rows.filter (fun r => r.category == n)).map
                (fun r => r.amount)).sum)) = id := rfl
      rw [h2, List.map_id, List.mem_dedup]
      constructor
      · intro hmem
        by_contra hno
        push_neg at hno
        have hfil : s.expenses.filter (fun e => e.categoryId == c.id) = [] := by
          rw [List.filter_eq_nil_iff]
          intro e he
          simp only [beq_iff_eq]
          exact hno e he
        rw [List.mem_map] at hmem
        obtain ⟨r, hr, hrc⟩ := hmem
        have : r.amount ∈ ((rows.filter
            (fun r' => r'.category == c.name)).map (fun r' => r'.amount)) := by
          rw [List.mem_map]
          exact ⟨r, List.mem_filter.mpr ⟨hr, by simp [hrc]⟩, rfl⟩
        rw [hrows, joinAll] at this
        rw [hamounts, hfil] at this
        simp at this
      · rintro ⟨e, he, hecat⟩
        have : e.amount ∈ (s.expenses.filter
            (fun e' => e'.categoryId == c.id)).map (fun e' => e'.amount) := by
          rw [List.mem_map]
          exact ⟨e, List.mem_filter.mpr ⟨he, by simp [hecat]⟩, rfl⟩
        rw [← hamounts] at this
        rw [List.mem_map] at this
        obtain ⟨r, hr, -⟩ := this
        rw [List.mem_filter] at hr
        rw [List.mem_map]
        refine ⟨r, ?_, ?_⟩
        · rw [hrows, joinAll]
          exact hr.1
        · have := hr.2
          simpa using this
    · intro t ht
      have hg := hmemgrouped (c.name, t) ht
      rw [hgrouped, List.mem_map] at hg
      obtain ⟨n, -, hn⟩ := hg
      have hn1 : n = c.name := congrArg Prod.fst hn
      have hn2 : ((rows.filter (fun r => r.category == n)).map
          (fun r => r.amount)).sum = t := congrArg Prod.snd hn
      rw [← hn2, hn1]
      have : (rows.filter (fun r => r.category == c.name)).map
          (fun r => r.amount) = (s.expenses.filter
            (fun e => e.categoryId == c.id)).map (fun e => e.amount) := by
        rw [hrows, joinAll]
        exact hamounts
      rw [this]

/-- Witness for C8 at a concrete well-formed store with two expenses in one
category and one empty category. -/
theorem C8_get_expenses_by_category_witness :
    WF demoState2 ∧
    ((get_expenses_by_category demoState2 false).2 = [] ∧
    (get_expenses_by_category demoState2 false).1.Pairwise totalDesc ∧
    ((get_expenses_by_category demoState2 false).1.map Prod.fst).Nodup ∧
    (∀ p ∈ (get_expenses_by_category demoState2 false).1,
      ∃ c ∈ demoState2.categories, c.name = p.1) ∧
    (∀ c ∈ demoState2.categories,
      (c.name ∈ (get_expenses_by_category demoState2 false).1.map Prod.fst ↔
        ∃ e ∈ demoState2.expenses, e.categoryId = c.id) ∧
      (∀ t, (c.name, t) ∈ (get_expenses_by_category demoState2 false).1 →
        t = ((demoState2.expenses.filter (fun e => e.categoryId == c.id)).map
              (fun e => e.amount)).sum))) :=
  ⟨by decide, C8_get_expenses_by_category demoState2 (by decide)⟩

/-- Claim C9: adding two expenses with the same previously-unseen category name
creates exactly one category row carrying that name (the second call resolves
to the row inserted by the first), and `extract_existing_category_names`
afterwards is lexicographically sorted, free of duplicates, and contains the
name exactly once. -/
theorem C9_add_expense_idempotent_category (s : DBState) (cn : String)
    (today₁ today₂ desc₁ desc₂ : String) (amt₁ amt₂ : Rat)
    (d₁ d₂ : Option String) (hw : WF s)
    (hnew : ∀ c ∈ s.categories, c.name ≠ cn)
    (h₁ : validIsoDate (d₁.getD today₁) = true)
    (h₂ : validIsoDate (d₂.getD today₂) = true) :
    (((add_expense (add_expense s today₁ amt₁ cn d₁ desc₁).state
        today₂ amt₂ cn d₂ desc₂).state.categories.filter
          (fun c => c.name == cn)).length = 1) ∧
    (extract_existing_category_names
      (add_expense (add_expense s today₁ amt₁ cn d₁ desc₁).state
        today₂ amt₂ cn d₂ desc₂).state).Pairwise strAsc ∧
    (extract_existing_category_names
      (add_expense (add_expense s today₁ amt₁ cn d₁ desc₁).state
        today₂ amt₂ cn d₂ desc₂).state).Nodup ∧
    (extract_existing_category_names
      (add_expense (add_expense s today₁ amt₁ cn d₁ desc₁).state
        today₂ amt₂ cn d₂ desc₂).state).count cn = 1 := by
  obtain ⟨hnames, -, -, -⟩ := hw
  have hfind1 : s.categories.find? (fun c => c.name == cn) = none := by
    rw [List.find?_eq_none]
    intro c hcmem
    simp only [beq_iff_eq]
    exact hnew c hcmem
  have hs₁cats : (add_expense s today₁ amt₁ cn d₁ desc₁).state.categories =
      s.categories ++ [⟨s.nextCategoryId, cn⟩] := by
    rw [add_expense]
    simp only [h₁, Bool.not_true, Bool.false_eq_true, if_false, hfind1]
  have hfind2 : ((add_expense s today₁ amt₁ cn d₁ desc₁).state.categories.find?
      (fun c => c.name == cn)) = some ⟨s.nextCategoryId, cn⟩ := by
    rw [hs₁cats, List.find?_append, hfind1]
    simp [List.find?]
  have hs₂cats : (add_expense (add_expense s today₁ amt₁ cn d₁ desc₁).state
      today₂ amt₂ cn d₂ desc₂).state.categories =
      s.categories ++ [⟨s.nextCategoryId, cn⟩] := by
    rw [add_expense]
    simp only [h₂, Bool.not_true, Bool.false_eq_true, if_false, hfind2]
    exact hs₁cats
  have hnodupnames : ((s.categories ++
      [(⟨s.nextCategoryId, cn⟩ : CategoryRow)]).map
        (fun c => c.name)).Nodup := by
    rw [List.map_append]
    rw [List.nodup_append]
    refine ⟨hnames, List.nodup_singleton cn, ?_⟩
    intro n hn hn'
    simp only [List.map_cons, List.map_nil, List.mem_singleton] at hn'
    rw [List.mem_map] at hn
    obtain ⟨c, hcmem, hcn⟩ := hn
    exact hnew c hcmem (by rw [hcn, hn'])
  have hperm : (extract_existing_category_names
      (add_expense (add_expense s today₁ amt₁ cn d₁ desc₁).state
        today₂ amt₂ cn d₂ desc₂).state).Perm
      ((s.categories ++ [(⟨s.nextCategoryId, cn⟩ : CategoryRow)]).map
        (fun c => c.name)) := by
    rw [extract_existing_category_names, hs₂cats]
    exact List.perm_insertionSort strAsc _
  refine ⟨?_, ?_, ?_, ?_⟩
  · rw [hs₂cats, List.filter_append]
    have hnil : s.categories.filter (fun c => c.name == cn) = [] := by
      rw [List.filter_eq_nil_iff]
      intro c hcmem
      simp [hnew c hcmem]
    rw [hnil]
    simp
  · rw [extract_existing_category_names, hs₂cats]
    exact List.sorted_insertionSort strAsc _
  · rw [hperm.nodup_iff]
    exact hnodupnames
  · rw [hperm.count_eq]
    rw [List.map_append, List.count_append]
    have h0 : (s.categories.map (fun c => c.name)).count cn = 0 := by
      rw [List.count_eq_zero]
      intro hmem
      rw [List.mem_map] at hmem
      obtain ⟨c, hcmem, hcn⟩ := hmem
      exact hnew c hcmem hcn
    rw [h0]
    simp [List.count_singleton]

/-- Witness for C9: two `Groceries` expenses added to the freshly initialized
store. -/
theorem C9_add_expense_idempotent_category_witness :
    (WF initialState ∧
     (∀ c ∈ initialState.categories, c.name ≠ "Groceries") ∧
     validIsoDate ((none : Option String).getD "2024-03-01") = true ∧
     validIsoDate ((some "2024-03-07").getD "2024-03-05") = true) ∧
    ((((add_expense (add_expense initialState "2024-03-01" 3 "Groceries" none
          "lunch").state "2024-03-05" 4 "Groceries" (some "2024-03-07")
            "dinner").state.categories.filter
          (fun c => c.name == "Groceries")).length = 1) ∧
    (extract_existing_category_names
      (add_expense (add_expense initialState "2024-03-01" 3 "Groceries" none
          "lunch").state "2024-03-05" 4 "Groceries" (some "2024-03-07")
            "dinner").state).Pairwise strAsc ∧
    (extract_existing_category_names
      (add_expense (add_expense initialState "2024-03-01" 3 "Groceries" none
          "lunch").state "2024-03-05" 4 "Groceries" (some "2024-03-07")
            "dinner").state).Nodup ∧
    (extract_existing_category_names
      (add_expense (add_expense initialState "2024-03-01" 3 "Groceries" none
          "lunch").state "2024-03-05" 4 "Groceries" (some "2024-03-07")
            "dinner").state).count "Groceries" = 1) :=
  ⟨⟨by decide, by decide, by decide, by decide⟩,
   C9_add_expense_idempotent_category initialState "Groceries" "2024-03-01"
     "2024-03-05" "lunch" "dinner" 3 4 none (some "2024-03-07")
     (by decide) (by decide) (by decide) (by decide)⟩

theorem find?_name_eq (cats : List CategoryRow) (c : CategoryRow)
    (hc : c ∈ cats) (hnames : (cats.map (fun x => x.name)).Nodup) :
    cats.find? (fun x => x.name == c.name) = some c := by
  induction cats with
  | nil => cases hc
  | cons d cats ih =>
    rw [List.map_cons, List.nodup_cons] at hnames
    rcases List.mem_cons.mp hc with h | h
    · subst h
      simp [List.find?]
    · have hdc : (d.name == c.name) = false := by
        simp only [beq_eq_false_iff_ne, ne_eq]
        intro hdn
        exact hnames.1 (hdn ▸ List.mem_map.mpr ⟨c, h, rfl⟩)
      rw [List.find?_cons, hdc]
      exact ih h hnames.2

/-- Claim C10: in `fetch_expenses`, a malformed date range or a (non-empty)
category name matching no existing category causes that filter condition to
be dropped after printing a message, so the call returns the expenses
matching only the remaining conditions — all expenses when every filter is
dropped — and never fails; with an existing category name and a malformed
date range, only the category condition is applied. -/
theorem C10_fetch_expenses_drops_bad_filters (s : DBState) (a b cn : String)
    (hw : WF s)
    (hdate : ¬(validIsoDate a = true ∧ validIsoDate b = true))
    (hcn : cn ≠ "") (hnocat : ∀ c ∈ s.categories, c.name ≠ cn) :
    fetch_expenses s (some cn) (some (a, b)) =
      (s.expenses,
       ["Invalid date format. Please use ISO format (YYYY-MM-DD).",
        "Category '" ++ cn ++ "' was not found."]) ∧
    fetch_expenses s (some cn) none =
      (s.expenses, ["Category '" ++ cn ++ "' was not found."]) ∧
    fetch_expenses s none (some (a, b)) =
      (s.expenses,
       ["Invalid date format. Please use ISO format (YYYY-MM-DD)."]) ∧
    fetch_expenses s none none = (s.expenses, []) ∧
    (∀ c ∈ s.categories, c.name ≠ "" →
      fetch_expenses s (some c.name) (some (a, b)) =
        (s.expenses.filter (fun e => e.categoryId == c.id),
         ["Invalid date format. Please use ISO format (YYYY-MM-DD)."])) := by
  obtain ⟨hnames, -, -, -⟩ := hw
  have hvb : (validIsoDate a && validIsoDate b) = false := by
    cases hA : validIsoDate a <;> cases hB : validIsoDate b <;> simp_all
  have hcnb : (cn == "") = false := beq_eq_false_iff_ne.mpr hcn
  have hfindnone : s.categories.find? (fun c => c.name == cn) = none := by
    rw [List.find?_eq_none]
    intro c hcmem
    simp only [beq_iff_eq]
    exact hnocat c hcmem
  refine ⟨?_, ?_, ?_, ?_, ?_⟩
  · rw [fetch_expenses]
    simp [hvb, hcnb, hfindnone]
  · rw [fetch_expenses]
    simp [hcnb, hfindnone]
  · rw [fetch_expenses]
    simp [hvb]
  · rw [fetch_expenses]
    simp
  · intro c hcmem hcname
    have hfindc : s.categories.find? (fun x => x.name == c.name) = some c :=
      find?_name_eq s.categories c hcmem hnames
    have hcnameb : (c.name == "") = false := beq_eq_false_iff_ne.mpr hcname
    rw [fetch_expenses]
    simp [hvb, hcnameb, hfindc]

/-- Witness for C10 at a concrete store, a malformed bound and an unknown
category name. -/
theorem C10_fetch_expenses_drops_bad_filters_witness :
    (WF demoState2 ∧
     ¬(validIsoDate "bad" = true ∧ validIsoDate "2024-12-31" = true) ∧
     ("Nope" : String) ≠ "" ∧
     (∀ c ∈ demoState2.categories, c.name ≠ "Nope")) ∧
    (fetch_expenses demoState2 (some "Nope") (some ("bad", "2024-12-31")) =
      (demoState2.expenses,
       ["Invalid date format. Please use ISO format (YYYY-MM-DD).",
        "Category '" ++ "Nope" ++ "' was not found."]) ∧
    fetch_expenses demoState2 (some "Nope") none =
      (demoState2.expenses, ["Category '" ++ "Nope" ++ "' was not found."]) ∧
    fetch_expenses demoState2 none (some ("bad", "2024-12-31")) =
      (demoState2.expenses,
       ["Invalid date format. Please use ISO format (YYYY-MM-DD)."]) ∧
    fetch_expenses demoState2 none none = (demoState2.expenses, []) ∧
    (∀ c ∈ demoState2.categories, c.name ≠ "" →
      fetch_expenses demoState2 (some c.name) (some ("bad", "2024-12-31")) =
        (demoState2.expenses.filter (fun e => e.categoryId == c.id),
         ["Invalid date format. Please use ISO format (YYYY-MM-DD)."]))) :=
  ⟨⟨by decide, by decide, by decide, by decide⟩,
   C10_fetch_expenses_drops_bad_filters demoState2 "bad" "2024-12-31" "Nope"
     (by decide) (by decide) (by decide) (by decide)⟩

end FinanceTrack
